import Mathlib

/-!
Verification of the packed-pixel addressing and access layer of the tPlace
repository (src/backend/redis_project/canvas.py).

The Python module is shallowly embedded below.  Pure helpers become Lean
functions; the Redis-backed canvas becomes explicit state passing over a
store-state type.  The external bitfield-capable key-value store (the redis
client) is an external collaborator and is modelled from the specification's
interface contract (spec section 6): FIELD-GET returns the decoded integer of
one field, FIELD-SET writes one field atomically, BLOB-GET returns the whole
stored blob.  The addressing token "#i" denotes the i-th field of the
configured field width, so the store model is keyed by the numeric field
index carried by the token.

The helper module `commons` of the repository is not under src/; the pieces
the canvas module imports from it (`convert_one_index_to_zero_index`, the
`Color` palette, `CANVAS_WIDTH`, `CANVAS_HEIGHT`, `PIXEL_FORMAT`) are
modelled from the specification, each marked `Modelled from the spec:` at its
definition.
-/

/-- Decimal digit character, as Python's chr(48 + d) produces for d < 10. -/
def digitChar (d : Nat) : Char := Char.ofNat (48 + d)

/-- Fuel-driven decimal digit list of a natural number, most significant digit
first; the fuel argument makes the recursion structural.  With fuel > n the
result is the ordinary decimal rendering. -/
def natToDigitsAux : Nat → Nat → List Char → List Char
  | 0, _, acc => acc
  | fuel + 1, n, acc =>
    if n < 10 then digitChar n :: acc
    else natToDigitsAux fuel (n / 10) (digitChar (n % 10) :: acc)

/-- Decimal digit list of a natural number, most significant digit first. -/
def natToDigits (n : Nat) : List Char := natToDigitsAux (n + 1) n []

/-- Embedding of Python's builtin str on int: decimal rendering, with a
leading minus sign for negative numbers. -/
def pyStr (n : Int) : String :=
  if n < 0 then "-" ++ String.mk (natToDigits (-n).toNat)
  else String.mk (natToDigits n.toNat)

/-- Value of a most-significant-first decimal digit list; left inverse of
natToDigits, used to prove injectivity of the rendering. -/
def digitsVal (l : List Char) : Nat :=
  l.foldl (fun a c => 10 * a + (c.toNat - 48)) 0

/-- Modelled from the spec: commons.convert_one_index_to_zero_index is not
under src/; spec section 4.1 fixes it as zero_index = coordinate - 1. -/
def convert_one_index_to_zero_index (i : Int) : Int := i - 1

/-- canvas.format_offset: joins "#" with the decimal rendering of the offset
(the Python source writes it as ''.join(['#', str(pixel_offset)]), a
two-element join with empty separator, i.e. plain concatenation). -/
def format_offset (pixel_offset : Int) : String := "#" ++ pyStr pixel_offset

/-- The zero-indexed linear field index computed inside canvas.calculate_offset:
height_index_offset + width_index_offset.  The store consumes the addressing
token "#i" as this index i (spec section 6). -/
def offset_index (pixel_x_coordinate pixel_y_coordinate canvas_width : Int) : Int :=
  convert_one_index_to_zero_index pixel_y_coordinate * canvas_width +
    convert_one_index_to_zero_index pixel_x_coordinate

/-- canvas.calculate_offset: formats the linear index of the 1-indexed
coordinate pair as an addressing token. -/
def calculate_offset (pixel_x_coordinate pixel_y_coordinate canvas_width : Int) : String :=
  format_offset (offset_index pixel_x_coordinate pixel_y_coordinate canvas_width)

/-- Modelled from the spec: the external bitfield-capable key-value store
(spec section 6).  `fields i` is the decoded integer of the i-th field of the
blob (0 when never written: an absent key or a field beyond the written
extent reads as zero); `byteLen` is the byte length of the stored blob, which
a field write extends to cover the written field. -/
structure RedisStore where
  fields : Int → Nat
  byteLen : Nat

/-- Bytes needed by the store to hold fields 0..idx of width fb bits. -/
def bytesForField (idx : Int) (fb : Nat) : Nat := ((idx.toNat + 1) * fb + 7) / 8

/-- FIELD-GET of spec section 6: returns the decoded integer of one field. -/
def RedisStore.fieldGet (s : RedisStore) (idx : Int) : Nat := s.fields idx

/-- FIELD-SET of spec section 6: atomically writes one field of width fb,
wrapping the value into fb bits, and extends the blob to cover the field. -/
def RedisStore.fieldSet (s : RedisStore) (idx : Int) (v : Nat) (fb : Nat) : RedisStore :=
  { fields := fun i => if i = idx then v % 2 ^ fb else s.fields i
    byteLen := max s.byteLen (bytesForField idx fb) }

/-- BLOB-GET of spec section 6: the raw stored blob, observed as its byte
length together with its decoded fields. -/
def RedisStore.blob (s : RedisStore) : Nat × (Int → Nat) := (s.byteLen, s.fields)

/-- Modelled from the spec: the fresh state of a store key that has never
been written ("the blob is created implicitly by the store on first write",
spec section 3); fields read as zero and the blob is empty. -/
def emptyStore : RedisStore := ⟨fun _ => 0, 0⟩

/-- Modelled from the spec: the commons.Color palette is not under src/;
spec section 3 gives WHITE = 0 and section 8 Scenario B gives GREY = 1. -/
inductive Color
  | WHITE
  | GREY
deriving DecidableEq

/-- Numeric value of a palette color. -/
def Color.value : Color → Nat
  | Color.WHITE => 0
  | Color.GREY => 1

/-- Modelled from the spec: commons.CANVAS_WIDTH, the deployed canvas width;
spec section 8 Scenario A fixes the deployed configuration at 5 x 5, "u4". -/
def CANVAS_WIDTH : Int := 5

/-- Modelled from the spec: commons.CANVAS_HEIGHT, the deployed canvas
height (spec section 8 Scenario A). -/
def CANVAS_HEIGHT : Int := 5

/-- Modelled from the spec: commons.PIXEL_FORMAT is the field-width spec
"u4", modelled by its field width in bits (spec sections 3 and 8). -/
def PIXEL_FORMAT_BITS : Nat := 4

/-- The canvas.Canvas object's immutable configuration: width, height, key
name, and pixel format (the field-width spec "u4" modelled by its bit
width).  The database handle is the RedisStore state threaded explicitly. -/
structure Canvas where
  width : Int
  height : Int
  name : String
  field_width : Nat

/-- Canvas.get_pixel_color: computes the addressing token of (x, y) and
issues one FIELD-GET round trip, returning the decoded integer. -/
def Canvas.get_pixel_color (c : Canvas) (s : RedisStore)
    (pixel_x_coordinate pixel_y_coordinate : Int) : Nat :=
  s.fieldGet (offset_index pixel_x_coordinate pixel_y_coordinate c.width)

/-- Canvas.set_pixel_color: computes the addressing token of (x, y) and
issues one FIELD-SET round trip with the color's numeric value. -/
def Canvas.set_pixel_color (c : Canvas) (s : RedisStore)
    (pixel_x_coordinate pixel_y_coordinate : Int) (color : Color) : RedisStore :=
  s.fieldSet (offset_index pixel_x_coordinate pixel_y_coordinate c.width)
    color.value c.field_width

/-- Embedding of Python's range(lo, hi + 1): the integers lo..hi in order. -/
def intRange (lo hi : Int) : List Int :=
  (List.range (hi + 1 - lo).toNat).map (fun (k : Nat) => lo + (k : Int))

/-- Canvas.set_pixel_region: for y from the top-left to the bottom-right row
and, inside each row, x from the left to the right column, issues one
independent FIELD-SET round trip writing WHITE at the pixel's offset. -/
def Canvas.set_pixel_region (c : Canvas) (s : RedisStore)
    (top_left_pixel_x_coordinate top_left_pixel_y_coordinate
      bottom_right_pixel_x_coordinate bottom_right_pixel_y_coordinate : Int) : RedisStore :=
  (intRange top_left_pixel_y_coordinate bottom_right_pixel_y_coordinate).foldl
    (fun s1 y_coordinate =>
      (intRange top_left_pixel_x_coordinate bottom_right_pixel_x_coordinate).foldl
        (fun s2 x_coordinate =>
          s2.fieldSet (offset_index x_coordinate y_coordinate c.width)
            Color.WHITE.value c.field_width)
        s1)
    s

/-- Canvas.get_canvas: one BLOB-GET round trip returning the stored blob
verbatim, without decoding. -/
def Canvas.get_canvas (c : Canvas) (s : RedisStore) : Nat × (Int → Nat) :=
  s.blob

/-- Canvas.to_string: row-major full scan, one FIELD-GET round trip per
pixel, concatenating the decimal rendering of each decoded value and closing
each row with a newline. -/
def Canvas.to_string (c : Canvas) (s : RedisStore) : String :=
  (List.range c.height.toNat).foldl
    (fun acc (y_coordinate : Nat) =>
      ((List.range c.width.toNat).foldl
        (fun acc2 (x_coordinate : Nat) =>
          acc2 ++ pyStr (s.fieldGet
            (offset_index ((x_coordinate : Int) + 1) ((y_coordinate : Int) + 1) c.width)))
        acc) ++ "\n")
    ""

/-- Canvas._fill_with_white_pixels: fills the region with corners (1, 1) and
(CANVAS_WIDTH, CANVAS_HEIGHT) — the global constants from commons, not the
instance's own width and height. -/
def Canvas.fill_with_white_pixels (c : Canvas) (s : RedisStore) : RedisStore :=
  c.set_pixel_region s 1 1 CANVAS_WIDTH CANVAS_HEIGHT

/-- Canvas.__init__: records the configuration, attaches the store handle
(the threaded state; host and port belong to the excluded connection
machinery) and runs _fill_with_white_pixels before returning.  Returns the
constructed object together with the store state after initialization. -/
def Canvas.init (width height : Int) (pixel_format : Nat) (name : String)
    (s : RedisStore) : Canvas × RedisStore :=
  let c : Canvas := ⟨width, height, name, pixel_format⟩
  (c, c.fill_with_white_pixels s)

/-- The row-major list of pixel coordinates (x, y) written by
set_pixel_region (y outer, x inner), in the order the round trips are
issued. -/
def region_write_list (x1 y1 x2 y2 : Int) : List (Int × Int) :=
  (intRange y1 y2).flatMap (fun y => (intRange x1 x2).map (fun x => (x, y)))

/-- Applies the WHITE field writes of the given coordinate list in order:
the sequence of independent FIELD-SET round trips a region fill issues. -/
def applyWrites (c : Canvas) (L : List (Int × Int)) (s : RedisStore) : RedisStore :=
  L.foldl
    (fun t p => t.fieldSet (offset_index p.1 p.2 c.width) Color.WHITE.value c.field_width)
    s

/-- Fault-injection executor for a sequence of WHITE field writes: the k-th
round trip (0-based) raises a store error before mutating anything.  The
first component is none when the error propagated to the caller (some final
state on a complete run); the second component is the external store's state
when control returned, keeping every write already performed. -/
def runWritesWithFault (c : Canvas) :
    List (Int × Int) → Nat → RedisStore → Option RedisStore × RedisStore
  | [], _, s => (some s, s)
  | _ :: _, 0, s => (none, s)
  | p :: rest, k + 1, s =>
    runWritesWithFault c rest k
      (s.fieldSet (offset_index p.1 p.2 c.width) Color.WHITE.value c.field_width)

/-- The single-pixel and region store-mutating operations of the canvas, for
stating reachable-state invariants. -/
inductive CanvasOp
  | setPixel (x y : Int) (color : Color)
  | setRegion (x1 y1 x2 y2 : Int)

/-- Runs one canvas operation against the store. -/
def applyOp (c : Canvas) (s : RedisStore) : CanvasOp → RedisStore
  | CanvasOp.setPixel x y color => c.set_pixel_color s x y color
  | CanvasOp.setRegion x1 y1 x2 y2 => c.set_pixel_region s x1 y1 x2 y2

/-- An operation whose coordinates stay within the canvas rectangle. -/
def opInRange (c : Canvas) : CanvasOp → Prop
  | CanvasOp.setPixel x y _ => 1 ≤ x ∧ x ≤ c.width ∧ 1 ≤ y ∧ y ≤ c.height
  | CanvasOp.setRegion x1 y1 x2 y2 =>
      1 ≤ x1 ∧ x2 ≤ c.width ∧ 1 ≤ y1 ∧ y2 ≤ c.height

instance (c : Canvas) : (op : CanvasOp) → Decidable (opInRange c op)
  | CanvasOp.setPixel _ _ _ => inferInstanceAs (Decidable (_ ∧ _))
  | CanvasOp.setRegion _ _ _ _ => inferInstanceAs (Decidable (_ ∧ _))

/-- The deployed canvas configuration: 5 x 5, pixel format "u4", as
constructed by the module's main block from the commons constants. -/
def deployedCanvas : Canvas := ⟨CANVAS_WIDTH, CANVAS_HEIGHT, "canvas", PIXEL_FORMAT_BITS⟩

/-- A sample store state whose every field holds GREY, with the 13-byte blob
left by a full grey fill of the deployed 5 x 5 canvas (as the module's main
block produces before calling set_pixel_region). -/
def greyStore : RedisStore := ⟨fun _ => 1, 13⟩

/-! ## Helper lemmas: decimal rendering -/

theorem digitChar_toNat : ∀ d, d < 10 → (digitChar d).toNat = 48 + d := by decide

theorem natToDigitsAux_acc (fuel : Nat) : ∀ (n : Nat) (acc : List Char),
    natToDigitsAux fuel n acc = natToDigitsAux fuel n [] ++ acc := by
  induction fuel with
  | zero => intro n acc; simp [natToDigitsAux]
  | succ fuel ih =>
    intro n acc
    by_cases h : n < 10
    · simp [natToDigitsAux, h]
    · simp only [natToDigitsAux, if_neg h]
      rw [ih (n / 10) (digitChar (n % 10) :: acc), ih (n / 10) [digitChar (n % 10)]]
      simp

theorem digitsVal_append_single (l : List Char) (ch : Char) :
    digitsVal (l ++ [ch]) = 10 * digitsVal l + (ch.toNat - 48) := by
  simp [digitsVal, List.foldl_append]

theorem digitsVal_natToDigitsAux (fuel : Nat) : ∀ n, n < fuel →
    digitsVal (natToDigitsAux fuel n []) = n := by
  induction fuel with
  | zero => intro n h; omega
  | succ fuel ih =>
    intro n hn
    by_cases h : n < 10
    · simp [natToDigitsAux, h, digitsVal, digitChar_toNat n h]
    · simp only [natToDigitsAux, if_neg h]
      rw [natToDigitsAux_acc, digitsVal_append_single,
        ih (n / 10) (by omega), digitChar_toNat (n % 10) (by omega)]
      omega

theorem digitsVal_natToDigits (n : Nat) : digitsVal (natToDigits n) = n :=
  digitsVal_natToDigitsAux (n + 1) n (Nat.lt_succ_self n)

theorem natToDigits_injective {a b : Nat} (h : natToDigits a = natToDigits b) : a = b := by
  have := congrArg digitsVal h
  rwa [digitsVal_natToDigits, digitsVal_natToDigits] at this

theorem pyStr_inj_nonneg {a b : Int} (ha : 0 ≤ a) (hb : 0 ≤ b)
    (h : pyStr a = pyStr b) : a = b := by
  rw [pyStr, pyStr, if_neg (by omega), if_neg (by omega)] at h
  have hdata := congrArg String.data h
  simp only at hdata
  have := natToDigits_injective hdata
  omega

theorem format_offset_inj {a b : Int} (h : format_offset a = format_offset b)
    (ha : 0 ≤ a) (hb : 0 ≤ b) : a = b := by
  apply pyStr_inj_nonneg ha hb
  have hdata := congrArg String.data h
  simp only [format_offset, String.data_append] at hdata
  exact String.ext (by simpa using hdata)

/-! ## Helper lemmas: integer ranges and row-major indexing -/

theorem mem_intRange {a lo hi : Int} : a ∈ intRange lo hi ↔ lo ≤ a ∧ a ≤ hi := by
  rw [intRange]
  constructor
  · intro h
    rcases List.mem_map.mp h with ⟨k, hk, hka⟩
    have hkn := List.mem_range.mp hk
    omega
  · intro ⟨h1, h2⟩
    exact List.mem_map.mpr ⟨(a - lo).toNat, List.mem_range.mpr (by omega), by omega⟩

theorem intRange_eq_nil {lo hi : Int} (h : hi < lo) : intRange lo hi = [] := by
  rw [intRange]
  have h0 : (hi + 1 - lo).toNat = 0 := by omega
  rw [h0]
  rfl

theorem rowmajor_inj {W a a' b b' : Int} (ha : 0 ≤ a) (haW : a < W)
    (ha' : 0 ≤ a') (ha'W : a' < W) (h : b * W + a = b' * W + a') :
    a = a' ∧ b = b' := by
  have hbb : (b - b') * W = a' - a := by ring_nf; linarith
  rcases lt_trichotomy b b' with h1 | h1 | h1
  · exfalso
    have h2 : 1 ≤ b' - b := by omega
    have h3 : 1 * W ≤ (b' - b) * W := by
      apply mul_le_mul_of_nonneg_right h2 (by omega)
    have h4 : (b' - b) * W = a - a' := by ring_nf; linarith
    omega
  · constructor <;> [skip; exact h1]
    subst h1; omega
  · exfalso
    have h2 : 1 ≤ b - b' := by omega
    have h3 : 1 * W ≤ (b - b') * W := by
      apply mul_le_mul_of_nonneg_right h2 (by omega)
    omega

theorem offset_index_eq (x y W : Int) : offset_index x y W = (y - 1) * W + (x - 1) := rfl

/-! ## Helper lemmas: region fills as write sequences -/

theorem applyWrites_nil (c : Canvas) (s : RedisStore) : applyWrites c [] s = s := rfl

theorem applyWrites_cons (c : Canvas) (p : Int × Int) (L : List (Int × Int))
    (s : RedisStore) :
    applyWrites c (p :: L) s =
      applyWrites c L
        (s.fieldSet (offset_index p.1 p.2 c.width) Color.WHITE.value c.field_width) := rfl

theorem applyWrites_append (c : Canvas) (L1 L2 : List (Int × Int)) (s : RedisStore) :
    applyWrites c (L1 ++ L2) s = applyWrites c L2 (applyWrites c L1 s) := by
  simp [applyWrites, List.foldl_append]

theorem applyWrites_fields (c : Canvas) :
    ∀ (L : List (Int × Int)) (s : RedisStore) (i : Int),
    (applyWrites c L s).fields i =
      if i ∈ L.map (fun p => offset_index p.1 p.2 c.width) then 0 else s.fields i := by
  intro L
  induction L with
  | nil => intro s i; simp [applyWrites]
  | cons p L ih =>
    intro s i
    rw [applyWrites_cons, ih]
    by_cases hmem : i ∈ L.map (fun p => offset_index p.1 p.2 c.width)
    · simp [hmem]
    · by_cases hp : i = offset_index p.1 p.2 c.width
      · simp [hmem, hp, RedisStore.fieldSet, Color.value]
      · simp [hmem, hp, RedisStore.fieldSet]

theorem set_pixel_region_eq_applyWrites (c : Canvas) (s : RedisStore) (x1 y1 x2 y2 : Int) :
    c.set_pixel_region s x1 y1 x2 y2 = applyWrites c (region_write_list x1 y1 x2 y2) s := by
  rw [Canvas.set_pixel_region, region_write_list]
  generalize intRange y1 y2 = ys
  induction ys generalizing s with
  | nil => simp [applyWrites]
  | cons y ys ih =>
    simp only [List.foldl_cons, List.flatMap_cons, applyWrites_append]
    rw [ih]
    congr 1
    simp [applyWrites, List.foldl_map]

theorem runWritesWithFault_spec (c : Canvas) :
    ∀ (L : List (Int × Int)) (k : Nat) (s : RedisStore), k < L.length →
    runWritesWithFault c L k s = (none, applyWrites c (L.take k) s) := by
  intro L
  induction L with
  | nil => intro k s h; simp at h
  | cons p rest ih =>
    intro k s h
    match k with
    | 0 => simp [runWritesWithFault, applyWrites]
    | k + 1 =>
      rw [runWritesWithFault, ih k _ (by simpa using h)]
      simp [applyWrites_cons]

theorem mem_region_write_list {p : Int × Int} {x1 y1 x2 y2 : Int} :
    p ∈ region_write_list x1 y1 x2 y2 ↔
      x1 ≤ p.1 ∧ p.1 ≤ x2 ∧ y1 ≤ p.2 ∧ p.2 ≤ y2 := by
  constructor
  · intro hp
    rcases List.mem_flatMap.mp hp with ⟨y, hy, hx⟩
    rcases List.mem_map.mp hx with ⟨x, hxm, hpe⟩
    rcases mem_intRange.mp hy with ⟨hy1, hy2⟩
    rcases mem_intRange.mp hxm with ⟨hx1, hx2⟩
    rw [← hpe]
    exact ⟨hx1, hx2, hy1, hy2⟩
  · intro ⟨h1, h2, h3, h4⟩
    apply List.mem_flatMap.mpr
    exact ⟨p.2, mem_intRange.mpr ⟨h3, h4⟩,
      List.mem_map.mpr ⟨p.1, mem_intRange.mpr ⟨h1, h2⟩, rfl⟩⟩

theorem mem_region_offsets {W x1 y1 x2 y2 i : Int} :
    i ∈ (region_write_list x1 y1 x2 y2).map (fun p => offset_index p.1 p.2 W) ↔
      ∃ x y, x1 ≤ x ∧ x ≤ x2 ∧ y1 ≤ y ∧ y ≤ y2 ∧ i = offset_index x y W := by
  constructor
  · intro h
    rcases List.mem_map.mp h with ⟨p, hp, hpi⟩
    rcases mem_region_write_list.mp hp with ⟨h1, h2, h3, h4⟩
    exact ⟨p.1, p.2, h1, h2, h3, h4, hpi.symm⟩
  · rintro ⟨x, y, h1, h2, h3, h4, rfl⟩
    exact List.mem_map.mpr ⟨(x, y), mem_region_write_list.mpr ⟨h1, h2, h3, h4⟩, rfl⟩

/-! ## Helper lemmas: blob byte length under in-range writes -/

theorem fieldSet_byteLen (s : RedisStore) (idx : Int) (v fb : Nat) :
    (s.fieldSet idx v fb).byteLen = max s.byteLen (bytesForField idx fb) := rfl

theorem bytesForField_le_13 {i : Int} (h : i ≤ 24) : bytesForField i 4 ≤ 13 := by
  rw [bytesForField]
  omega

theorem applyWrites_byteLen_13 (c : Canvas) :
    ∀ (L : List (Int × Int)) (s : RedisStore),
    (∀ p ∈ L, bytesForField (offset_index p.1 p.2 c.width) c.field_width ≤ 13) →
    s.byteLen = 13 → (applyWrites c L s).byteLen = 13 := by
  intro L
  induction L with
  | nil => intro s _ hs; exact hs
  | cons p L ih =>
    intro s hb hs
    rw [applyWrites_cons]
    apply ih
    · intro q hq; exact hb q (List.mem_cons_of_mem p hq)
    · rw [fieldSet_byteLen, hs]
      exact Nat.max_eq_left (hb p (List.mem_cons_self p L))

theorem deployed_offset_le_24 {x y : Int} (hx : 1 ≤ x) (hxW : x ≤ 5)
    (hy : 1 ≤ y) (hyH : y ≤ 5) : offset_index x y 5 ≤ 24 := by
  rw [offset_index_eq]
  omega

theorem applyOp_byteLen (op : CanvasOp) (s : RedisStore)
    (hop : opInRange deployedCanvas op) (hs : s.byteLen = 13) :
    (applyOp deployedCanvas s op).byteLen = 13 := by
  match op with
  | CanvasOp.setPixel x y color =>
    rcases hop with ⟨h1, h2, h3, h4⟩
    simp only [deployedCanvas, CANVAS_WIDTH, CANVAS_HEIGHT] at h2 h4
    rw [applyOp, Canvas.set_pixel_color, fieldSet_byteLen, hs]
    apply Nat.max_eq_left
    exact bytesForField_le_13 (deployed_offset_le_24 h1 h2 h3 h4)
  | CanvasOp.setRegion x1 y1 x2 y2 =>
    rcases hop with ⟨h1, h2, h3, h4⟩
    simp only [deployedCanvas, CANVAS_WIDTH, CANVAS_HEIGHT] at h2 h4
    rw [applyOp, set_pixel_region_eq_applyWrites]
    apply applyWrites_byteLen_13 _ _ _ _ hs
    intro p hp
    rcases mem_region_write_list.mp hp with ⟨g1, g2, g3, g4⟩
    exact bytesForField_le_13
      (deployed_offset_le_24 (by omega) (by omega) (by omega) (by omega))

theorem opsFold_byteLen :
    ∀ (ops : List CanvasOp) (s : RedisStore),
    (∀ op ∈ ops, opInRange deployedCanvas op) → s.byteLen = 13 →
    (ops.foldl (applyOp deployedCanvas) s).byteLen = 13 := by
  intro ops
  induction ops with
  | nil => intro s _ hs; exact hs
  | cons op ops ih =>
    intro s hop hs
    rw [List.foldl_cons]
    exact ih _ (fun q hq => hop q (List.mem_cons_of_mem op hq))
      (applyOp_byteLen op s (hop op (List.mem_cons_self op ops)) hs)

theorem pyStr_zero : pyStr 0 = "0" := rfl

theorem deployed_width : deployedCanvas.width = 5 := rfl

theorem deployed_height : deployedCanvas.height = 5 := rfl

/-! ## Claims -/

/-- C1: For every 1-indexed coordinate pair (x, y) and canvas width W,
calculate_offset x y W returns the addressing token "#" followed by the
decimal rendering of the linear index (y - 1) * W + (x - 1); in particular
calculate_offset 1 1 W = "#0", calculate_offset W 1 W is "#" followed by the
rendering of W - 1, and calculate_offset 1 2 W is "#" followed by the
rendering of W. -/
theorem claim_C1 (x y W : Int) :
    calculate_offset x y W = "#" ++ pyStr ((y - 1) * W + (x - 1))
    ∧ calculate_offset 1 1 W = "#0"
    ∧ calculate_offset W 1 W = "#" ++ pyStr (W - 1)
    ∧ calculate_offset 1 2 W = "#" ++ pyStr W := by
  refine ⟨rfl, ?_, ?_, ?_⟩
  · show format_offset (offset_index 1 1 W) = "#0"
    have h : offset_index 1 1 W = 0 := by rw [offset_index_eq]; ring
    rw [h]
    rfl
  · show format_offset (offset_index W 1 W) = "#" ++ pyStr (W - 1)
    have h : offset_index W 1 W = W - 1 := by rw [offset_index_eq]; ring
    rw [h]
    rfl
  · show format_offset (offset_index 1 2 W) = "#" ++ pyStr W
    have h : offset_index 1 2 W = W := by rw [offset_index_eq]; ring
    rw [h]
    rfl

/-- C5: The offset mapping is injective over the valid rectangle: for
1 ≤ x, x' ≤ width and 1 ≤ y, y' ≤ height, the addressing tokens of (x, y)
and (x', y') coincide if and only if (x, y) = (x', y'). -/
theorem claim_C5 (W H x x' y y' : Int) (hx : 1 ≤ x) (hxW : x ≤ W)
    (hx' : 1 ≤ x') (hx'W : x' ≤ W) (hy : 1 ≤ y) (hyH : y ≤ H)
    (hy' : 1 ≤ y') (hy'H : y' ≤ H) :
    calculate_offset x y W = calculate_offset x' y' W ↔ x = x' ∧ y = y' := by
  constructor
  · intro h
    have hnn : 0 ≤ offset_index x y W := by
      rw [offset_index_eq]
      have : 0 ≤ (y - 1) * W := mul_nonneg (by omega) (by omega)
      omega
    have hnn' : 0 ≤ offset_index x' y' W := by
      rw [offset_index_eq]
      have : 0 ≤ (y' - 1) * W := mul_nonneg (by omega) (by omega)
      omega
    have hidx : offset_index x y W = offset_index x' y' W :=
      format_offset_inj h hnn hnn'
    rw [offset_index_eq, offset_index_eq] at hidx
    have hb := rowmajor_inj (W := W) (by omega) (by omega) (by omega) (by omega) hidx
    omega
  · rintro ⟨rfl, rfl⟩
    rfl

/-- C5 witness: at width 5, height 5, the tokens of (2, 3) and (2, 3)
coincide and the coordinates are equal. -/
theorem claim_C5_witness :
    ((1:Int) ≤ 2 ∧ (2:Int) ≤ 5 ∧ (1:Int) ≤ 3 ∧ (3:Int) ≤ 5)
    ∧ (calculate_offset 2 3 5 = calculate_offset 2 3 5 ↔ (2:Int) = 2 ∧ (3:Int) = 3) :=
  ⟨⟨by decide, by decide, by decide, by decide⟩,
    claim_C5 5 5 2 2 3 3 (by decide) (by decide) (by decide) (by decide)
      (by decide) (by decide) (by decide) (by decide)⟩

/-- C9: calculate_offset performs no bounds checking and never fails: on
every integer input, in range or not, it returns the "#"-prefixed decimal
token of the computed linear index, and a coordinate one past the row end
aliases into the start of the next row: for W ≥ 1,
calculate_offset (W + 1) y W = calculate_offset 1 (y + 1) W. -/
theorem claim_C9 (x y W : Int) (hW : 1 ≤ W) :
    calculate_offset x y W = "#" ++ pyStr ((y - 1) * W + (x - 1))
    ∧ calculate_offset (W + 1) y W = calculate_offset 1 (y + 1) W := by
  refine ⟨rfl, ?_⟩
  show format_offset (offset_index (W + 1) y W) = format_offset (offset_index 1 (y + 1) W)
  have h : offset_index (W + 1) y W = offset_index 1 (y + 1) W := by
    rw [offset_index_eq, offset_index_eq]
    ring
  rw [h]

/-- C9 witness: at width 5, the out-of-range column 6 of row 2 gets the same
token as column 1 of row 3. -/
theorem claim_C9_witness :
    (1:Int) ≤ 5
    ∧ (calculate_offset 7 2 5 = "#" ++ pyStr ((2 - 1) * 5 + (7 - 1))
        ∧ calculate_offset 6 2 5 = calculate_offset 1 3 5) :=
  ⟨by decide, (claim_C9 7 2 5 (by decide)).1, (claim_C9 6 2 5 (by decide)).2⟩

/-- C10: With inverted corners (x1 > x2 or y1 > y2), set_pixel_region issues
zero store writes (its write list is empty), raises no error, and returns
the store unchanged. -/
theorem claim_C10 (c : Canvas) (s : RedisStore) (x1 y1 x2 y2 : Int)
    (h : x2 < x1 ∨ y2 < y1) :
    region_write_list x1 y1 x2 y2 = [] ∧ c.set_pixel_region s x1 y1 x2 y2 = s := by
  have hL : region_write_list x1 y1 x2 y2 = [] := by
    rcases h with h | h
    · rw [region_write_list, intRange_eq_nil h]
      simp
    · rw [region_write_list, intRange_eq_nil h]
      rfl
  exact ⟨hL, by rw [set_pixel_region_eq_applyWrites, hL, applyWrites_nil]⟩

/-- C10 witness: the inverted rectangle (3, 1)-(2, 5) on the deployed canvas
produces no writes and leaves the empty store unchanged. -/
theorem claim_C10_witness :
    ((2:Int) < 3 ∨ (5:Int) < 1)
    ∧ region_write_list 3 1 2 5 = []
    ∧ deployedCanvas.set_pixel_region emptyStore 3 1 2 5 = emptyStore :=
  ⟨Or.inl (by decide),
    (claim_C10 deployedCanvas emptyStore 3 1 2 5 (Or.inl (by decide))).1,
    (claim_C10 deployedCanvas emptyStore 3 1 2 5 (Or.inl (by decide))).2⟩

/-- C2: For every in-range coordinate pair and every palette color,
set_pixel_color followed by get_pixel_color at the same pixel, with no
intervening write, returns the color's numeric value (the canvas's field
width being positive, as the deployed "u4" format's 4 bits are). -/
theorem claim_C2 (c : Canvas) (s : RedisStore) (x y : Int) (col : Color)
    (hx : 1 ≤ x) (hxW : x ≤ c.width) (hy : 1 ≤ y) (hyH : y ≤ c.height)
    (hfb : 0 < c.field_width) :
    c.get_pixel_color (c.set_pixel_color s x y col) x y = col.value := by
  rw [Canvas.get_pixel_color, Canvas.set_pixel_color, RedisStore.fieldGet,
    RedisStore.fieldSet]
  simp only [if_pos rfl]
  have h2 : col.value < 2 ^ c.field_width := by
    have hp : 2 ^ 1 ≤ 2 ^ c.field_width := Nat.pow_le_pow_right (by omega) hfb
    cases col <;> simp [Color.value] <;> omega
  exact Nat.mod_eq_of_lt h2

/-- C2 witness: writing GREY at (2, 3) on the deployed canvas and reading it
back returns GREY's numeric value. -/
theorem claim_C2_witness :
    ((1:Int) ≤ 2 ∧ (2:Int) ≤ deployedCanvas.width ∧ (1:Int) ≤ 3
      ∧ (3:Int) ≤ deployedCanvas.height ∧ 0 < deployedCanvas.field_width)
    ∧ deployedCanvas.get_pixel_color
        (deployedCanvas.set_pixel_color emptyStore 2 3 Color.GREY) 2 3
      = Color.GREY.value :=
  ⟨⟨by decide, by decide, by decide, by decide, by decide⟩,
    claim_C2 deployedCanvas emptyStore 2 3 Color.GREY (by decide) (by decide)
      (by decide) (by decide) (by decide)⟩

/-- C3 (code evaluation at the failing input): the constructor does not fill
the instance's own width x height rectangle.  Constructing a 6 x 1 canvas
("u4") over a store holding GREY everywhere leaves pixel (6, 1) GREY, not
WHITE, because _fill_with_white_pixels fills the global
CANVAS_WIDTH x CANVAS_HEIGHT rectangle (its own docstring promises the
instance's extent). -/
theorem claim_C3_bug :
    ((Canvas.init 6 1 4 "canvas" greyStore).1).get_pixel_color
        (Canvas.init 6 1 4 "canvas" greyStore).2 6 1 = Color.GREY.value
    ∧ Color.GREY.value ≠ Color.WHITE.value := by
  exact ⟨by decide, by decide⟩

/-- C4 counterexample: on the deployed 5-wide canvas over an all-GREY store,
the rectangle (5, 1)-(6, 1) satisfies x1 ≤ x2 and y1 ≤ y2, the pixel (1, 2)
lies strictly outside it, yet the region fill changes that pixel from GREY
to WHITE (the overhanging column aliases into the next row), so the claim as
stated is false. -/
theorem claim_C4_counterexample :
    ((5:Int) ≤ 6 ∧ (1:Int) ≤ 1)
    ∧ ¬ ((5:Int) ≤ 1 ∧ (1:Int) ≤ 6 ∧ (1:Int) ≤ 2 ∧ (2:Int) ≤ 1)
    ∧ deployedCanvas.get_pixel_color greyStore 1 2 = Color.GREY.value
    ∧ deployedCanvas.get_pixel_color
        (deployedCanvas.set_pixel_region greyStore 5 1 6 1) 1 2 = Color.WHITE.value
    ∧ Color.WHITE.value ≠ Color.GREY.value := by
  exact ⟨by decide, by decide, by decide, by decide, by decide⟩

/-- C4 (amended): when the rectangle additionally lies within the canvas
bounds, after set_pixel_region every canvas pixel inside the inclusive
rectangle reads as WHITE and every canvas pixel strictly outside it reads
its prior value. -/
theorem claim_C4_amended (c : Canvas) (s : RedisStore) (x1 y1 x2 y2 x y : Int)
    (hx1 : 1 ≤ x1) (hx12 : x1 ≤ x2) (hx2 : x2 ≤ c.width)
    (hy1 : 1 ≤ y1) (hy12 : y1 ≤ y2) (hy2 : y2 ≤ c.height)
    (hx : 1 ≤ x) (hxW : x ≤ c.width) (hy : 1 ≤ y) (hyH : y ≤ c.height) :
    c.get_pixel_color (c.set_pixel_region s x1 y1 x2 y2) x y =
      if x1 ≤ x ∧ x ≤ x2 ∧ y1 ≤ y ∧ y ≤ y2 then Color.WHITE.value
      else c.get_pixel_color s x y := by
  rw [Canvas.get_pixel_color, set_pixel_region_eq_applyWrites, RedisStore.fieldGet,
    applyWrites_fields]
  have hiff : offset_index x y c.width ∈ (region_write_list x1 y1 x2 y2).map
      (fun p => offset_index p.1 p.2 c.width) ↔
        x1 ≤ x ∧ x ≤ x2 ∧ y1 ≤ y ∧ y ≤ y2 := by
    rw [mem_region_offsets]
    constructor
    · rintro ⟨x0, y0, g1, g2, g3, g4, heq⟩
      rw [offset_index_eq, offset_index_eq] at heq
      have hb := rowmajor_inj (W := c.width) (by omega) (by omega) (by omega)
        (by omega) heq
      omega
    · intro ⟨g1, g2, g3, g4⟩
      exact ⟨x, y, g1, g2, g3, g4, rfl⟩
  by_cases hin : x1 ≤ x ∧ x ≤ x2 ∧ y1 ≤ y ∧ y ≤ y2
  · rw [if_pos (hiff.mpr hin), if_pos hin]
    rfl
  · rw [if_neg (fun hm => hin (hiff.mp hm)), if_neg hin, Canvas.get_pixel_color,
      RedisStore.fieldGet]

/-- C4 witness: filling (2, 2)-(4, 4) on the deployed all-GREY canvas makes
the inside pixel (3, 3) read WHITE per the amended statement. -/
theorem claim_C4_amended_witness :
    ((1:Int) ≤ 2 ∧ (2:Int) ≤ 4 ∧ (4:Int) ≤ deployedCanvas.width
      ∧ (1:Int) ≤ 2 ∧ (2:Int) ≤ 4 ∧ (4:Int) ≤ deployedCanvas.height
      ∧ (1:Int) ≤ 3 ∧ (3:Int) ≤ deployedCanvas.width
      ∧ (1:Int) ≤ 3 ∧ (3:Int) ≤ deployedCanvas.height)
    ∧ deployedCanvas.get_pixel_color
        (deployedCanvas.set_pixel_region greyStore 2 2 4 4) 3 3 =
      if (2:Int) ≤ 3 ∧ (3:Int) ≤ 4 ∧ (2:Int) ≤ 3 ∧ (3:Int) ≤ 4 then Color.WHITE.value
      else deployedCanvas.get_pixel_color greyStore 3 3 :=
  ⟨⟨by decide, by decide, by decide, by decide, by decide, by decide, by decide,
      by decide, by decide, by decide⟩,
    claim_C4_amended deployedCanvas greyStore 2 2 4 4 3 3 (by decide) (by decide)
      (by decide) (by decide) (by decide) (by decide) (by decide) (by decide)
      (by decide) (by decide)⟩

/-- C6: set_pixel_region is not atomic as a whole: it equals the sequence of
independent per-pixel WHITE writes listed in row-major order (y outer, x
inner) by region_write_list, and when the k-th round trip raises, the error
propagates to the caller (result none) while the store keeps exactly the
first k writes: fields hit by them read WHITE and all others keep their
prior value — no rollback. -/
theorem claim_C6 (c : Canvas) (s : RedisStore) (x1 y1 x2 y2 : Int) (k : Nat)
    (i : Int) (hk : k < (region_write_list x1 y1 x2 y2).length) :
    c.set_pixel_region s x1 y1 x2 y2 = applyWrites c (region_write_list x1 y1 x2 y2) s
    ∧ (runWritesWithFault c (region_write_list x1 y1 x2 y2) k s).1 = none
    ∧ (runWritesWithFault c (region_write_list x1 y1 x2 y2) k s).2.fields i =
        if i ∈ ((region_write_list x1 y1 x2 y2).take k).map
            (fun p => offset_index p.1 p.2 c.width)
          then Color.WHITE.value else s.fields i := by
  refine ⟨set_pixel_region_eq_applyWrites c s x1 y1 x2 y2, ?_, ?_⟩
  · rw [runWritesWithFault_spec c _ k s hk]
  · rw [runWritesWithFault_spec c _ k s hk]
    exact applyWrites_fields c _ s i

/-- C6 witness: filling (1, 1)-(2, 2) on the deployed all-GREY canvas with
the third round trip failing leaves the first two written fields WHITE (here
field 1, the offset of pixel (2, 1)) and propagates the error. -/
theorem claim_C6_witness :
    2 < (region_write_list 1 1 2 2).length
    ∧ (deployedCanvas.set_pixel_region greyStore 1 1 2 2
        = applyWrites deployedCanvas (region_write_list 1 1 2 2) greyStore
      ∧ (runWritesWithFault deployedCanvas (region_write_list 1 1 2 2) 2 greyStore).1
          = none
      ∧ (runWritesWithFault deployedCanvas (region_write_list 1 1 2 2) 2 greyStore).2.fields 1 =
          if (1:Int) ∈ ((region_write_list 1 1 2 2).take 2).map
              (fun p => offset_index p.1 p.2 deployedCanvas.width)
            then Color.WHITE.value else greyStore.fields 1) :=
  ⟨by decide,
    claim_C6 deployedCanvas greyStore 1 1 2 2 2 1 (by decide)⟩

/-- C7: on the deployed configuration (5 x 5, "u4"), starting from a fresh
key, after construction and any sequence of in-range canvas writes,
get_canvas returns the stored blob verbatim without decoding, and its byte
length is exactly ceil(width * height * field_width_bits / 8) = 13. -/
theorem claim_C7 (ops : List CanvasOp)
    (hops : ∀ op ∈ ops, opInRange deployedCanvas op) :
    Canvas.get_canvas deployedCanvas
        (ops.foldl (applyOp deployedCanvas)
          (Canvas.init CANVAS_WIDTH CANVAS_HEIGHT PIXEL_FORMAT_BITS "canvas" emptyStore).2)
      = RedisStore.blob
          (ops.foldl (applyOp deployedCanvas)
            (Canvas.init CANVAS_WIDTH CANVAS_HEIGHT PIXEL_FORMAT_BITS "canvas" emptyStore).2)
    ∧ (Canvas.get_canvas deployedCanvas
        (ops.foldl (applyOp deployedCanvas)
          (Canvas.init CANVAS_WIDTH CANVAS_HEIGHT PIXEL_FORMAT_BITS "canvas" emptyStore).2)).1
      = (deployedCanvas.width.toNat * deployedCanvas.height.toNat
          * deployedCanvas.field_width + 7) / 8 := by
  refine ⟨rfl, ?_⟩
  have hrhs : (deployedCanvas.width.toNat * deployedCanvas.height.toNat
      * deployedCanvas.field_width + 7) / 8 = 13 := by decide
  have hinit : ((Canvas.init CANVAS_WIDTH CANVAS_HEIGHT PIXEL_FORMAT_BITS "canvas"
      emptyStore).2).byteLen = 13 := by decide
  rw [hrhs]
  exact opsFold_byteLen ops _ hops hinit

/-- C7 witness: after construction and one in-range GREY write at (2, 3),
the blob read back is the store's blob and is 13 bytes long. -/
theorem claim_C7_witness :
    (∀ op ∈ [CanvasOp.setPixel 2 3 Color.GREY], opInRange deployedCanvas op)
    ∧ (Canvas.get_canvas deployedCanvas
        ([CanvasOp.setPixel 2 3 Color.GREY].foldl (applyOp deployedCanvas)
          (Canvas.init CANVAS_WIDTH CANVAS_HEIGHT PIXEL_FORMAT_BITS "canvas" emptyStore).2)
        = RedisStore.blob
            ([CanvasOp.setPixel 2 3 Color.GREY].foldl (applyOp deployedCanvas)
              (Canvas.init CANVAS_WIDTH CANVAS_HEIGHT PIXEL_FORMAT_BITS "canvas" emptyStore).2)
      ∧ (Canvas.get_canvas deployedCanvas
          ([CanvasOp.setPixel 2 3 Color.GREY].foldl (applyOp deployedCanvas)
            (Canvas.init CANVAS_WIDTH CANVAS_HEIGHT PIXEL_FORMAT_BITS "canvas" emptyStore).2)).1
        = (deployedCanvas.width.toNat * deployedCanvas.height.toNat
            * deployedCanvas.field_width + 7) / 8) :=
  ⟨by decide, claim_C7 [CanvasOp.setPixel 2 3 Color.GREY] (by decide)⟩

/-- C8: to_string performs the row-major full scan; on a freshly constructed
canvas of the deployed 5 x 5, "u4" configuration, whatever the prior store
state, it renders a 5 x 5 grid of "0" with a newline closing each row. -/
theorem claim_C8 (s : RedisStore) :
    Canvas.to_string (Canvas.init CANVAS_WIDTH CANVAS_HEIGHT PIXEL_FORMAT_BITS "canvas" s).1
        (Canvas.init CANVAS_WIDTH CANVAS_HEIGHT PIXEL_FORMAT_BITS "canvas" s).2
      = "00000\n00000\n00000\n00000\n00000\n" := by
  have hf : ∀ i : Int,
      ((Canvas.init CANVAS_WIDTH CANVAS_HEIGHT PIXEL_FORMAT_BITS "canvas" s).2).fields i
        = if 0 ≤ i ∧ i < 25 then 0 else s.fields i := by
    intro i
    show (Canvas.set_pixel_region deployedCanvas s 1 1 CANVAS_WIDTH CANVAS_HEIGHT).fields i
      = _
    rw [set_pixel_region_eq_applyWrites, applyWrites_fields]
    simp only [show CANVAS_WIDTH = (5:Int) from rfl, show CANVAS_HEIGHT = (5:Int) from rfl,
      deployed_width]
    by_cases h : 0 ≤ i ∧ i < 25
    · rw [if_pos h, if_pos]
      apply mem_region_offsets.mpr
      refine ⟨i % 5 + 1, i / 5 + 1, by omega, by omega, by omega, by omega, ?_⟩
      rw [offset_index_eq]
      omega
    · rw [if_neg h, if_neg]
      intro hm
      rcases mem_region_offsets.mp hm with ⟨x0, y0, g1, g2, g3, g4, hi⟩
      rw [offset_index_eq] at hi
      exact h ⟨by omega, by omega⟩
  show Canvas.to_string deployedCanvas
      (Canvas.init CANVAS_WIDTH CANVAS_HEIGHT PIXEL_FORMAT_BITS "canvas" s).2 = _
  have hr : List.range 5 = [0, 1, 2, 3, 4] := rfl
  have ht : Int.toNat 5 = 5 := rfl
  simp only [Canvas.to_string, deployed_height, deployed_width, ht, hr,
    List.foldl_cons, List.foldl_nil, RedisStore.fieldGet, hf, offset_index_eq]
  norm_num
  simp only [pyStr_zero]
  rfl
